import Mathlib

/-!
Verification development for the `stt` repository (single source file
`src/app.py`, a Streamlit "Refocusing Card" generator).

The Python string operations used by the app (`str.split`, `str.strip`,
`str.startswith`) are embedded here over `List Char`.  The Gemini API call
(`get_refocus_plan_from_gemini`) is embedded as a function of an abstract
service outcome, with the JSON navigation of the response body modelled
faithfully, including the Python exceptions the navigation can raise, which
the source catches and turns into error strings.  The response-parsing and
session-state logic of `main` (src/app.py lines 401-451) is embedded as a
pure transition function.

The live audio capture / queued recognition pipeline described by the spec
is not present under `src/`; those components are modelled from the spec
(see the definitions whose doc comments begin `Modelled from the spec:`).
-/

namespace STT

/-- Python `s.startswith(p)` on character lists (src/app.py line 409). -/
def pyStartsWith (s p : List Char) : Bool :=
  List.isPrefixOf p s

/-- The ASCII whitespace characters stripped by Python `str.strip()`.
(Python also strips some further Unicode space characters; only the ASCII
ones are relevant to this development.) -/
def isPySpace (c : Char) : Bool :=
  c == ' ' || c == '\t' || c == '\n' || c == '\r' || c == '\x0b' || c == '\x0c'

/-- Python `s.strip()` on character lists. -/
def pyStrip (s : List Char) : List Char :=
  ((s.dropWhile isPySpace).reverse.dropWhile isPySpace).reverse

/-- Worker for `pySplit`: scans the string left to right, accumulating the
current piece (reversed) in `acc`; on finding an occurrence of `sep` it
emits the piece and continues after the separator.  The counter `k` holds
the number of remaining characters belonging to an already-matched
separator, which are consumed without being accumulated.  This is the
semantics of Python `s.split(sep)` for a non-empty `sep` (leftmost,
non-overlapping matches; empty pieces kept). -/
def pySplitGo (sep : List Char) : List Char → List Char → Nat → List (List Char)
  | [], acc, _ => [acc.reverse]
  | _ :: rest, acc, k + 1 => pySplitGo sep rest acc k
  | c :: rest, acc, 0 =>
    if sep ≠ [] ∧ sep.isPrefixOf (c :: rest) = true then
      acc.reverse :: pySplitGo sep rest [] (sep.length - 1)
    else
      pySplitGo sep rest (c :: acc) 0

/-- Python `s.split(sep)` for non-empty `sep`, on character lists. -/
def pySplit (sep s : List Char) : List (List Char) :=
  pySplitGo sep s [] 0

/-- Marker `[Situation Summary]`, the first split key of `main`
(src/app.py lines 414-437). -/
def mSit : List Char := "[Situation Summary]".data

/-- Marker `[Outcome Goal]`. -/
def mOut : List Char := "[Outcome Goal]".data

/-- Marker `[Outcome Goal Explanation]`. -/
def mOutEx : List Char := "[Outcome Goal Explanation]".data

/-- Marker `[Process Goal]`. -/
def mProc : List Char := "[Process Goal]".data

/-- Marker `[Process Goal Explanation]`. -/
def mProcEx : List Char := "[Process Goal Explanation]".data

/-- Error prefix checked at src/app.py line 409. -/
def mErr1 : List Char := "Error:".data

/-- Error prefix checked at src/app.py line 410. -/
def mErr2 : List Char := "An error occurred".data

/-- A JSON value as decoded by `response.json()` (src/app.py line 64). -/
inductive JVal where
  | null
  | bool (b : Bool)
  | num (n : Int)
  | str (s : List Char)
  | arr (items : List JVal)
  | dict (entries : List (List Char × JVal))

/-- The Python exceptions that the navigation of the decoded response can
raise inside the `try` block of `get_refocus_plan_from_gemini`
(src/app.py lines 65-67); all are caught by the bare `except Exception`
at line 72. -/
inductive PyExc where
  | keyError
  | indexError
  | attributeError
  | typeError

/-- Python `str(e)` for the exceptions of `PyExc`.  The exact interpreter
wording is immaterial to every claim; representative texts are used. -/
def pyExcMsg : PyExc → List Char
  | PyExc.keyError => "\x27candidates\x27".data
  | PyExc.indexError => "list index out of range".data
  | PyExc.attributeError => "object has no attribute \x27get\x27".data
  | PyExc.typeError => "object is not subscriptable".data

/-- Lookup in a decoded JSON object (Python dict; keys are unique, so
first match is the match). -/
def pyDictGet (es : List (List Char × JVal)) (k : List Char) : Option JVal :=
  match es.find? (fun p => p.1 == k) with
  | some p => some p.2
  | none => none

/-- Python truthiness of a decoded JSON value. -/
def pyTruthy : JVal → Bool
  | JVal.null => false
  | JVal.bool b => b
  | JVal.num n => !(n == 0)
  | JVal.str s => !s.isEmpty
  | JVal.arr items => !items.isEmpty
  | JVal.dict es => !es.isEmpty

/-- Python `key in v` for a string `key` and decoded JSON `v`
(src/app.py line 65): key membership for dicts, element membership for
lists, substring test for strings, `TypeError` otherwise.  (An equality
test of a string against a non-string Python value is `False`.) -/
def pyIn (key : List Char) : JVal → Except PyExc Bool
  | JVal.dict es => Except.ok (es.any (fun p => p.1 == key))
  | JVal.arr items =>
    Except.ok (items.any (fun i =>
      match i with
      | JVal.str s => s == key
      | _ => false))
  | JVal.str s => Except.ok (s.tails.any (fun suf => List.isPrefixOf key suf))
  | JVal.null => Except.error PyExc.typeError
  | JVal.bool _ => Except.error PyExc.typeError
  | JVal.num _ => Except.error PyExc.typeError

/-- Python `v[key]` for a string key (src/app.py lines 65-66). -/
def pySubscriptKey (v : JVal) (key : List Char) : Except PyExc JVal :=
  match v with
  | JVal.dict es =>
    match pyDictGet es key with
    | some x => Except.ok x
    | none => Except.error PyExc.keyError
  | _ => Except.error PyExc.typeError

/-- Python `v[0]` (src/app.py line 66). -/
def pySubscriptZero (v : JVal) : Except PyExc JVal :=
  match v with
  | JVal.arr items =>
    match items with
    | x :: _ => Except.ok x
    | [] => Except.error PyExc.indexError
  | JVal.str s =>
    match s with
    | c :: _ => Except.ok (JVal.str [c])
    | [] => Except.error PyExc.indexError
  | JVal.dict _ => Except.error PyExc.keyError
  | _ => Except.error PyExc.typeError

/-- Python `v.get(key, dflt)` (src/app.py lines 66-67): only dicts have a
`get` method; anything else raises `AttributeError`. -/
def pyGetMethod (v : JVal) (key : List Char) (dflt : JVal) : Except PyExc JVal :=
  match v with
  | JVal.dict es => Except.ok ((pyDictGet es key).getD dflt)
  | _ => Except.error PyExc.attributeError

mutual

/-- Python `repr` of a decoded JSON value, as interpolated by the f-string
at src/app.py line 69 (string escaping inside quoted atoms is not
reproduced; no claim depends on it). -/
def pyRepr : JVal → List Char
  | JVal.null => "None".data
  | JVal.bool true => "True".data
  | JVal.bool false => "False".data
  | JVal.num n => (toString n).data
  | JVal.str s => '\x27' :: (s ++ ['\x27'])
  | JVal.arr items => '[' :: (pyReprItems items ++ [']'])
  | JVal.dict es => '\x7b' :: (pyReprEntries es ++ ['\x7d'])

/-- Comma-separated `repr` of list elements. -/
def pyReprItems : List JVal → List Char
  | [] => []
  | [v] => pyRepr v
  | v :: vs => pyRepr v ++ ", ".data ++ pyReprItems vs

/-- Comma-separated `repr` of dict entries. -/
def pyReprEntries : List (List Char × JVal) → List Char
  | [] => []
  | [(k, v)] => ('\x27' :: (k ++ ['\x27'])) ++ ": ".data ++ pyRepr v
  | (k, v) :: es =>
    ('\x27' :: (k ++ ['\x27'])) ++ ": ".data ++ pyRepr v ++ ", ".data ++ pyReprEntries es

end

/-- Python `str` of a decoded JSON value (what an f-string interpolation
actually applies): the raw text for strings, `repr` otherwise. -/
def pyStr (v : JVal) : List Char :=
  match v with
  | JVal.str s => s
  | v => pyRepr v

/-- JSON key `"candidates"`. -/
def candKey : List Char := "candidates".data

/-- JSON key `"content"`. -/
def contentKey : List Char := "content".data

/-- JSON key `"parts"`. -/
def partsKey : List Char := "parts".data

/-- JSON key `"text"`. -/
def textKey : List Char := "text".data

/-- Default returned when the part has no `"text"` key (src/app.py line 67). -/
def noTextMsg : List Char := "Error: Could not find text in the response.".data

/-- Message prefix for an empty or unexpectedly shaped response
(src/app.py line 69). -/
def emptyRespPrefix : List Char :=
  "Error: API response is empty or in an unexpected format.\nResponse content: ".data

/-- Message prefix for a `requests` exception (src/app.py line 71). -/
def reqErrPrefix : List Char := "An error occurred during the API request: ".data

/-- Message prefix for any other exception (src/app.py line 73). -/
def unkErrPrefix : List Char := "An unknown error occurred: ".data

/-- The navigation of the decoded response performed at src/app.py lines
65-69: `if "candidates" in result and result["candidates"]:` then
`result["candidates"][0].get("content", {}).get("parts", [{}])[0]` and
`part.get("text", <default>)`; otherwise the "empty or unexpected format"
message with the `str` of the whole result interpolated. -/
def extractText (result : JVal) : Except PyExc JVal :=
  match pyIn candKey result with
  | Except.error e => Except.error e
  | Except.ok false => Except.ok (JVal.str (emptyRespPrefix ++ pyStr result))
  | Except.ok true =>
    match pySubscriptKey result candKey with
    | Except.error e => Except.error e
    | Except.ok cv =>
      if pyTruthy cv then
        match pySubscriptKey result candKey with
        | Except.error e => Except.error e
        | Except.ok cv2 =>
          match pySubscriptZero cv2 with
          | Except.error e => Except.error e
          | Except.ok c0 =>
            match pyGetMethod c0 contentKey (JVal.dict []) with
            | Except.error e => Except.error e
            | Except.ok content =>
              match pyGetMethod content partsKey (JVal.arr [JVal.dict []]) with
              | Except.error e => Except.error e
              | Except.ok parts =>
                match pySubscriptZero parts with
                | Except.error e => Except.error e
                | Except.ok p0 => pyGetMethod p0 textKey (JVal.str noTextMsg)
      else Except.ok (JVal.str (emptyRespPrefix ++ pyStr result))

/-- Abstract outcome of the single `requests.post` call (src/app.py lines
59-64): `requestError` models a `requests.exceptions.RequestException`
raised by `requests.post` or by `raise_for_status` (caught at line 70);
`unknownError` models any other exception raised before the body is
navigated, e.g. a JSON decode failure in `response.json()` (caught at
line 72); `ok` carries the decoded JSON body. -/
inductive ServiceOutcome where
  | requestError (msg : List Char)
  | unknownError (msg : List Char)
  | ok (result : JVal)

/-- One observable external interaction of `get_refocus_plan_from_gemini`:
an HTTP POST to `url` whose JSON body wraps `prompt` in the fixed
`contents/parts/text` envelope of src/app.py line 58 (the envelope carries
nothing else, so it is not modelled separately). -/
inductive GeminiEffect where
  | httpPost (url : List Char) (prompt : List Char)

/-- Endpoint URL built at src/app.py line 56. -/
def mkUrl (apiKey : List Char) : List Char :=
  "https://generativelanguage.googleapis.com/v1beta/models/gemini-2.5-flash-preview-05-20:generateContent?key=".data
    ++ apiKey

/-- The prompt template text before the interpolated situation
(src/app.py lines 27-54). -/
def promptPre : List Char :=
  ("\n        You are a professional sports psychologist who coaches athletes on their mentality.\n"
  ++ "\n"
  ++ "        A \x27Refocusing Plan\x27 is a concrete action plan to help an athlete break the cycle of negative thoughts and refocus on the present when faced with an unexpected situation.\n"
  ++ "\n"
  ++ "        Now, analyze the situation entered by the user and create a \x27Refocusing Plan\x27. The output must consist of three parts: [Situation Summary], [Outcome Goal], and [Process Goal].\n"
  ++ "\n"
  ++ "        1.  **[Situation Summary]**: Clearly summarize the user\x27s input \x27situation\x27 in one sentence, in the format \"In [the situation], I feel [the emotion]\".\n"
  ++ "        2.  **[Outcome Goal]**: Based on the summarized situation, present a cognitive shift the athlete should adopt—i.e., a \x27goal for thinking\x27—in a rational sentence.\n"
  ++ "        3.  **[Process Goal]**: Present a concrete and clear \x27goal for action\x27 that the athlete can immediately execute.\n"
  ++ "\n"
  ++ "        - Important: Emphasize the most crucial keywords or phrases in the Outcome Goal and Process Goal by wrapping them in Markdown bold format (\x60**keyword**\x60).\n"
  ++ "        - Add a brief explanation after each goal.\n"
  ++ "\n"
  ++ "        You must adhere to the response format shown in the example below:\n"
  ++ "        [Situation Summary]\n"
  ++ "        \x7bAI-generated situation summary\x7d\n"
  ++ "        [Outcome Goal]\n"
  ++ "        \x7bGenerated outcome goal\x7d\n"
  ++ "        [Outcome Goal Explanation]\n"
  ++ "        \x7bGenerated outcome goal explanation\x7d\n"
  ++ "        [Process Goal]\n"
  ++ "        \x7bGenerated process goal\x7d\n"
  ++ "        [Process Goal Explanation]\n"
  ++ "        \x7bGenerated process goal explanation\x7d\n"
  ++ "\n"
  ++ "        ---\n"
  ++ "        User Input Situation: \"").data

/-- The prompt template text after the interpolated situation. -/
def promptSuf : List Char := "\"\n    ".data

/-- The full prompt f-string of src/app.py lines 27-55. -/
def mkPrompt (situation : List Char) : List Char :=
  promptPre ++ situation ++ promptSuf

/-- Embedding of `get_refocus_plan_from_gemini` (src/app.py lines 25-73)
as a function of the abstract outcome of its one `requests.post` call.
The first component is the trace of HTTP requests issued; the second is
the Python value returned (a string on every path the external interface
of the service admits). -/
def get_refocus_plan_from_gemini (apiKey situation : List Char)
    (o : ServiceOutcome) : List GeminiEffect × JVal :=
  (([GeminiEffect.httpPost (mkUrl apiKey) (mkPrompt situation)]),
   match o with
   | ServiceOutcome.requestError m => JVal.str (reqErrPrefix ++ m)
   | ServiceOutcome.unknownError m => JVal.str (unkErrPrefix ++ m)
   | ServiceOutcome.ok result =>
     match extractText result with
     | Except.ok v => v
     | Except.error e => JVal.str (unkErrPrefix ++ pyExcMsg e))

/-- The stored plan: the Python dict literal built at src/app.py
lines 439-445. -/
abbrev PlanDict := List (List Char × List Char)

/-- Dict key `"when_summary"`. -/
def wkKey : List Char := "when_summary".data

/-- Dict key `"outcome_goal"`. -/
def ogKey : List Char := "outcome_goal".data

/-- Dict key `"outcome_explanation"`. -/
def oeKey : List Char := "outcome_explanation".data

/-- Dict key `"process_goal"`. -/
def pgKey : List Char := "process_goal".data

/-- Dict key `"process_explanation"`. -/
def peKey : List Char := "process_explanation".data

/-- The dict literal stored in `st.session_state.generated_plan`
(src/app.py lines 439-445). -/
def mkPlanDict (ws og oe pg pe : List Char) : PlanDict :=
  [(wkKey, ws), (ogKey, og), (oeKey, oe), (pgKey, pg), (peKey, pe)]

/-- The five keys of a stored plan, in insertion order. -/
def planKeys : List (List Char) := [wkKey, ogKey, oeKey, pgKey, peKey]

/-- The `try`/`except` block of `main` that turns the service result text
into the value stored in `st.session_state.generated_plan` (src/app.py
lines 408-448): raise on the two error prefixes; split on the five
markers, where a missing marker makes the `[1]` index raise `IndexError`;
both exceptions are caught and store `None` (modelled as `none`). -/
def processResult (t : List Char) : Option PlanDict :=
  if pyStartsWith t mErr1 || pyStartsWith t mErr2 then none
  else
    match (pySplit mSit t).get? 1 with
    | none => none
    | some a =>
      match (pySplit mOut t).get? 1 with
      | none => none
      | some b =>
        match (pySplit mOutEx t).get? 1 with
        | none => none
        | some c =>
          match (pySplit mProc t).get? 1 with
          | none => none
          | some d =>
            match (pySplit mProcEx t).get? 1 with
            | none => none
            | some e =>
              some (mkPlanDict
                (pyStrip ((pySplit mOut a).headD []))
                (pyStrip ((pySplit mOutEx b).headD []))
                (pyStrip ((pySplit mProc c).headD []))
                (pyStrip ((pySplit mProcEx d).headD []))
                (pyStrip e))

/-- Observable outcome of one press of the generate button. -/
structure GenAttempt where
  serviceCalled : Bool
  warned : Bool
  plan : Option PlanDict

/-- The generate-button handler of `main` (src/app.py lines 401-448):
a blank (empty after `strip`) situation shows a warning, stores `None`
and issues no service call; otherwise the service is called and its
result text `resultText` is parsed by `processResult`.  The stored plan
is fully determined by this handler — the previous session value is
overwritten on every attempt. -/
def onGenerateClick (situation resultText : List Char) : GenAttempt :=
  if pyStrip situation = [] then
    { serviceCalled := false, warned := true, plan := none }
  else
    { serviceCalled := true, warned := false, plan := processResult resultText }

/-- The display guard of `main` (src/app.py lines 450-451):
`if st.session_state.generated_plan:` — Python truthiness of
`None` / a dict. -/
def cardDisplayed (plan : Option PlanDict) : Bool :=
  match plan with
  | none => false
  | some d => !d.isEmpty

/-- Modelled from the spec: per-chunk outcome of the Transcription Service
(spec §3 "RecognitionResult", §9: explicit variants Text / NoSpeech /
ServiceError).  The WebRTC capture variant the spec describes is not
present under `src/`. -/
inductive RecognitionResult where
  | text (s : List Char)
  | noSpeech
  | serviceError

/-- Modelled from the spec: one element of the frame queue — an audio
chunk (identified with the recognition outcome the Transcription Service
returns for it) or the end-of-stream sentinel (spec §4.1). -/
inductive QItem where
  | chunk (r : RecognitionResult)
  | sentinel

/-- Modelled from the spec: the recognition worker loop (spec §4.2): pop
items in FIFO order; if sentinel, stop and return the accumulator;
on recognized text append `text + " "`; on a miss or a transient service
failure skip.  `none` models a worker that never observes a sentinel and
hence never terminates. -/
def runWorker : List QItem → List Char → Option (List Char)
  | [], _ => none
  | QItem.sentinel :: _, acc => some acc
  | QItem.chunk (RecognitionResult.text s) :: rest, acc => runWorker rest (acc ++ s ++ [' '])
  | QItem.chunk RecognitionResult.noSpeech :: rest, acc => runWorker rest acc
  | QItem.chunk RecognitionResult.serviceError :: rest, acc => runWorker rest acc

/-- Modelled from the spec: the explicit "no speech detected" marker
string reported instead of an empty transcript (spec §7(c), §8). -/
def noSpeechMarker : List Char := "no speech detected".data

/-- Modelled from the spec: the final transcript reported to the caller
once the worker has observed the sentinel, with an empty accumulation
reported as the no-speech marker (spec §7(c)). -/
def finalTranscript (q : List QItem) : Option (List Char) :=
  (runWorker q []).map (fun acc => if acc = [] then noSpeechMarker else acc)

/-- The recognized strings of a queue segment, in arrival order. -/
def recognizedTexts (q : List QItem) : List (List Char) :=
  q.filterMap (fun i =>
    match i with
    | QItem.chunk (RecognitionResult.text s) => some s
    | _ => none)

/-- Concatenation of each recognized string followed by one space — the
value the worker loop actually accumulates. -/
def joinSp (l : List (List Char)) : List Char :=
  (l.map (fun s => s ++ [' '])).flatten

/-- The spec's words for the claimed final transcript: the recognized
strings "space-joined" (separator between elements, no trailing space).
Stated from the spec only, for comparison with `joinSp`. -/
def specSpaceJoin (l : List (List Char)) : List Char :=
  List.intercalate [' '] l

/-- Modelled from the spec: capture lifecycle states (spec §4.3). -/
inductive CapState where
  | idle
  | recording
  | draining
  | stopped
deriving DecidableEq, Fintype

/-- Modelled from the spec: capture lifecycle events (spec §4.3):
capture start, a produced frame, the end-of-stream signal (sentinel
pushed), the worker observing the sentinel and exiting, and the start of
a new capture cycle. -/
inductive CapEvent where
  | startCapture
  | frame
  | endOfStream
  | workerExit
  | newSession
deriving DecidableEq, Fintype

/-- Modelled from the spec: the transition function of the capture
lifecycle (spec §4.3); `none` means the event cannot occur in that
state. -/
def capStep : CapState → CapEvent → Option CapState
  | CapState.idle, CapEvent.startCapture => some CapState.recording
  | CapState.recording, CapEvent.frame => some CapState.recording
  | CapState.recording, CapEvent.endOfStream => some CapState.draining
  | CapState.draining, CapEvent.workerExit => some CapState.stopped
  | CapState.stopped, CapEvent.newSession => some CapState.idle
  | _, _ => none

/-- Position of a state in the `Idle → Recording → Draining → Stopped`
order. -/
def stateIdx : CapState → Nat
  | CapState.idle => 0
  | CapState.recording => 1
  | CapState.draining => 2
  | CapState.stopped => 3

/-! ## Theorems -/

example : pySplit "b".data "abc".data = ["a".data, "c".data] := by decide
example : pySplit "aba".data "ababx".data = ["".data, "bx".data] := by decide
example : pyStrip "  hi \n".data = "hi".data := by decide

theorem pySplitGo_nil (sep acc : List Char) (k : Nat) :
    pySplitGo sep [] acc k = [acc.reverse] := rfl

theorem pySplitGo_skip (sep : List Char) (c : Char) (rest acc : List Char) (k : Nat) :
    pySplitGo sep (c :: rest) acc (k + 1) = pySplitGo sep rest acc k := rfl

theorem pySplitGo_zero (sep : List Char) (c : Char) (rest acc : List Char) :
    pySplitGo sep (c :: rest) acc 0 =
      if sep ≠ [] ∧ sep.isPrefixOf (c :: rest) = true then
        acc.reverse :: pySplitGo sep rest [] (sep.length - 1)
      else
        pySplitGo sep rest (c :: acc) 0 := rfl

/-! Scanning lemmas for `pySplitGo`.  All five markers start with `'['` and
contain no further `'['`, so a separator occurrence can only start at a
`'['` character; these lemmas walk the scanner across marker-free text,
across a non-matching marker, across a match, and to the end. -/

theorem go_skipn (sep a b acc : List Char) :
    pySplitGo sep (a ++ b) acc a.length = pySplitGo sep b acc 0 := by
  induction a with
  | nil => rfl
  | cons c a' ih => exact ih

theorem go_scan (sep : List Char) (hsep : sep.head? = some '[') :
    ∀ (a : List Char), '[' ∉ a → ∀ (b acc : List Char),
      pySplitGo sep (a ++ b) acc 0 = pySplitGo sep b (a.reverse ++ acc) 0 := by
  cases sep with
  | nil => simp at hsep
  | cons s0 s' =>
    have hs0 : s0 = '[' := by simpa using hsep
    subst hs0
    intro a
    induction a with
    | nil => intro _ b acc; simp
    | cons c a' ih =>
      intro ha b acc
      have hc : ¬ c = '[' := fun h => ha (by simp [h])
      have ha' : '[' ∉ a' := fun h => ha (List.mem_cons_of_mem _ h)
      rw [List.cons_append, pySplitGo_zero, if_neg]
      · rw [ih ha' b (c :: acc)]
        simp
      · rintro ⟨-, hpf⟩
        simp only [List.isPrefixOf, Bool.and_eq_true, beq_iff_eq] at hpf
        exact hc hpf.1.symm

theorem go_match (sep : List Char) (hsep : sep.head? = some '[') (t acc : List Char) :
    pySplitGo sep (sep ++ t) acc 0 = acc.reverse :: pySplitGo sep t [] 0 := by
  cases sep with
  | nil => simp at hsep
  | cons s0 s' =>
    rw [List.cons_append, pySplitGo_zero, if_pos]
    · have hlen : (s0 :: s').length - 1 = s'.length := by simp
      rw [hlen, go_skipn]
    · refine ⟨by simp, ?_⟩
      rw [ List.isPrefixOf_iff_prefix]
      exact ⟨t, by simp⟩

theorem go_last (sep : List Char) (hsep : sep.head? = some '[')
    (a : List Char) (ha : '[' ∉ a) (acc : List Char) :
    pySplitGo sep a acc 0 = [acc.reverse ++ a] := by
  have h := go_scan sep hsep a ha [] acc
  rw [List.append_nil] at h
  rw [h, pySplitGo_nil]
  simp

theorem go_marker (sep : List Char) (hsep : sep.head? = some '[')
    (m : List Char) (hm : m.head? = some '[') (hmt : '[' ∉ m.tail)
    (h1 : ¬ sep <+: m) (h2 : ¬ m <+: sep) (t acc : List Char) :
    pySplitGo sep (m ++ t) acc 0 = pySplitGo sep t (m.reverse ++ acc) 0 := by
  cases m with
  | nil => simp at hm
  | cons m0 m' =>
    have hm0 : m0 = '[' := by simpa using hm
    subst hm0
    have hmt' : '[' ∉ m' := by simpa using hmt
    rw [List.cons_append, pySplitGo_zero, if_neg]
    · rw [go_scan sep hsep m' hmt' t ('[' :: acc)]
      simp
    · rintro ⟨-, hpf⟩
      rw [ List.isPrefixOf_iff_prefix] at hpf
      have hmm : ('[' :: m') <+: '[' :: (m' ++ t) := by
        rw [← List.cons_append]
        exact List.prefix_append _ _
      rcases List.prefix_or_prefix_of_prefix hpf hmm with h | h
      · exact h1 h
      · exact h2 h

theorem mSit_head : mSit.head? = some '[' := rfl

theorem mOut_head : mOut.head? = some '[' := rfl

theorem mOutEx_head : mOutEx.head? = some '[' := rfl

theorem mProc_head : mProc.head? = some '[' := rfl

theorem mProcEx_head : mProcEx.head? = some '[' := rfl

theorem mSit_tl : '[' ∉ mSit.tail := by decide

theorem mOut_tl : '[' ∉ mOut.tail := by decide

theorem mOutEx_tl : '[' ∉ mOutEx.tail := by decide

theorem mProc_tl : '[' ∉ mProc.tail := by decide

theorem mProcEx_tl : '[' ∉ mProcEx.tail := by decide

/-! Evaluation of the five splits of `main` on a response of the canonical
shape: arbitrary marker-free text around the five markers in prompt
order. -/

theorem splitSit (pre s1 s2 s3 s4 s5 : List Char)
    (hp : '[' ∉ pre) (h1 : '[' ∉ s1) (h2 : '[' ∉ s2) (h3 : '[' ∉ s3)
    (h4 : '[' ∉ s4) (h5 : '[' ∉ s5) :
    pySplit mSit (pre ++ mSit ++ s1 ++ mOut ++ s2 ++ mOutEx ++ s3 ++ mProc ++ s4 ++ mProcEx ++ s5)
      = [pre, s1 ++ (mOut ++ (s2 ++ (mOutEx ++ (s3 ++ (mProc ++ (s4 ++ (mProcEx ++ s5)))))))] := by
  unfold pySplit
  simp only [List.append_assoc]
  rw [go_scan mSit mSit_head pre hp, go_match mSit mSit_head,
      go_scan mSit mSit_head s1 h1,
      go_marker mSit mSit_head mOut mOut_head mOut_tl (by decide) (by decide),
      go_scan mSit mSit_head s2 h2,
      go_marker mSit mSit_head mOutEx mOutEx_head mOutEx_tl (by decide) (by decide),
      go_scan mSit mSit_head s3 h3,
      go_marker mSit mSit_head mProc mProc_head mProc_tl (by decide) (by decide),
      go_scan mSit mSit_head s4 h4,
      go_marker mSit mSit_head mProcEx mProcEx_head mProcEx_tl (by decide) (by decide),
      go_last mSit mSit_head s5 h5]
  simp

theorem splitOut (pre s1 s2 s3 s4 s5 : List Char)
    (hp : '[' ∉ pre) (h1 : '[' ∉ s1) (h2 : '[' ∉ s2) (h3 : '[' ∉ s3)
    (h4 : '[' ∉ s4) (h5 : '[' ∉ s5) :
    pySplit mOut (pre ++ mSit ++ s1 ++ mOut ++ s2 ++ mOutEx ++ s3 ++ mProc ++ s4 ++ mProcEx ++ s5)
      = [pre ++ mSit ++ s1, s2 ++ (mOutEx ++ (s3 ++ (mProc ++ (s4 ++ (mProcEx ++ s5)))))] := by
  unfold pySplit
  simp only [List.append_assoc]
  rw [go_scan mOut mOut_head pre hp,
      go_marker mOut mOut_head mSit mSit_head mSit_tl (by decide) (by decide),
      go_scan mOut mOut_head s1 h1, go_match mOut mOut_head,
      go_scan mOut mOut_head s2 h2,
      go_marker mOut mOut_head mOutEx mOutEx_head mOutEx_tl (by decide) (by decide),
      go_scan mOut mOut_head s3 h3,
      go_marker mOut mOut_head mProc mProc_head mProc_tl (by decide) (by decide),
      go_scan mOut mOut_head s4 h4,
      go_marker mOut mOut_head mProcEx mProcEx_head mProcEx_tl (by decide) (by decide),
      go_last mOut mOut_head s5 h5]
  simp

theorem splitOutEx (pre s1 s2 s3 s4 s5 : List Char)
    (hp : '[' ∉ pre) (h1 : '[' ∉ s1) (h2 : '[' ∉ s2) (h3 : '[' ∉ s3)
    (h4 : '[' ∉ s4) (h5 : '[' ∉ s5) :
    pySplit mOutEx (pre ++ mSit ++ s1 ++ mOut ++ s2 ++ mOutEx ++ s3 ++ mProc ++ s4 ++ mProcEx ++ s5)
      = [pre ++ mSit ++ s1 ++ mOut ++ s2, s3 ++ (mProc ++ (s4 ++ (mProcEx ++ s5)))] := by
  unfold pySplit
  simp only [List.append_assoc]
  rw [go_scan mOutEx mOutEx_head pre hp,
      go_marker mOutEx mOutEx_head mSit mSit_head mSit_tl (by decide) (by decide),
      go_scan mOutEx mOutEx_head s1 h1,
      go_marker mOutEx mOutEx_head mOut mOut_head mOut_tl (by decide) (by decide),
      go_scan mOutEx mOutEx_head s2 h2, go_match mOutEx mOutEx_head,
      go_scan mOutEx mOutEx_head s3 h3,
      go_marker mOutEx mOutEx_head mProc mProc_head mProc_tl (by decide) (by decide),
      go_scan mOutEx mOutEx_head s4 h4,
      go_marker mOutEx mOutEx_head mProcEx mProcEx_head mProcEx_tl (by decide) (by decide),
      go_last mOutEx mOutEx_head s5 h5]
  simp

theorem splitProc (pre s1 s2 s3 s4 s5 : List Char)
    (hp : '[' ∉ pre) (h1 : '[' ∉ s1) (h2 : '[' ∉ s2) (h3 : '[' ∉ s3)
    (h4 : '[' ∉ s4) (h5 : '[' ∉ s5) :
    pySplit mProc (pre ++ mSit ++ s1 ++ mOut ++ s2 ++ mOutEx ++ s3 ++ mProc ++ s4 ++ mProcEx ++ s5)
      = [pre ++ mSit ++ s1 ++ mOut ++ s2 ++ mOutEx ++ s3, s4 ++ (mProcEx ++ s5)] := by
  unfold pySplit
  simp only [List.append_assoc]
  rw [go_scan mProc mProc_head pre hp,
      go_marker mProc mProc_head mSit mSit_head mSit_tl (by decide) (by decide),
      go_scan mProc mProc_head s1 h1,
      go_marker mProc mProc_head mOut mOut_head mOut_tl (by decide) (by decide),
      go_scan mProc mProc_head s2 h2,
      go_marker mProc mProc_head mOutEx mOutEx_head mOutEx_tl (by decide) (by decide),
      go_scan mProc mProc_head s3 h3, go_match mProc mProc_head,
      go_scan mProc mProc_head s4 h4,
      go_marker mProc mProc_head mProcEx mProcEx_head mProcEx_tl (by decide) (by decide),
      go_last mProc mProc_head s5 h5]
  simp

theorem splitProcEx (pre s1 s2 s3 s4 s5 : List Char)
    (hp : '[' ∉ pre) (h1 : '[' ∉ s1) (h2 : '[' ∉ s2) (h3 : '[' ∉ s3)
    (h4 : '[' ∉ s4) (h5 : '[' ∉ s5) :
    pySplit mProcEx (pre ++ mSit ++ s1 ++ mOut ++ s2 ++ mOutEx ++ s3 ++ mProc ++ s4 ++ mProcEx ++ s5)
      = [pre ++ mSit ++ s1 ++ mOut ++ s2 ++ mOutEx ++ s3 ++ mProc ++ s4, s5] := by
  unfold pySplit
  simp only [List.append_assoc]
  rw [go_scan mProcEx mProcEx_head pre hp,
      go_marker mProcEx mProcEx_head mSit mSit_head mSit_tl (by decide) (by decide),
      go_scan mProcEx mProcEx_head s1 h1,
      go_marker mProcEx mProcEx_head mOut mOut_head mOut_tl (by decide) (by decide),
      go_scan mProcEx mProcEx_head s2 h2,
      go_marker mProcEx mProcEx_head mOutEx mOutEx_head mOutEx_tl (by decide) (by decide),
      go_scan mProcEx mProcEx_head s3 h3,
      go_marker mProcEx mProcEx_head mProc mProc_head mProc_tl (by decide) (by decide),
      go_scan mProcEx mProcEx_head s4 h4, go_match mProcEx mProcEx_head,
      go_last mProcEx mProcEx_head s5 h5]
  simp

theorem inner_head (sep : List Char) (hsep : sep.head? = some '[')
    (a : List Char) (ha : '[' ∉ a) (t : List Char) :
    (pySplit sep (a ++ (sep ++ t))).headD [] = a := by
  unfold pySplit
  rw [go_scan sep hsep a ha, go_match sep hsep]
  simp

/-! Occurrence lemmas: `s.split(sep)` has at least two pieces exactly when
`sep` occurs in `s`, which is what makes the `[1]` index of `main` raise
`IndexError` exactly when a marker is missing. -/

theorem go_no_occ (sep : List Char) (_hsep : sep ≠ []) :
    ∀ (t : List Char), ¬ sep <:+: t → ∀ (acc : List Char),
      pySplitGo sep t acc 0 = [acc.reverse ++ t] := by
  intro t
  induction t with
  | nil => intro _ acc; simp [pySplitGo_nil]
  | cons c rest ih =>
    intro h acc
    rw [pySplitGo_zero, if_neg]
    · have hrest : ¬ sep <:+: rest := fun hi => h ( List.infix_cons hi)
      rw [ih hrest (c :: acc)]
      simp
    · rintro ⟨-, hpf⟩
      rw [ List.isPrefixOf_iff_prefix] at hpf
      exact h ( List.IsPrefix.isInfix hpf)

theorem go_len_pos (sep : List Char) :
    ∀ (t acc : List Char) (k : Nat), 1 ≤ (pySplitGo sep t acc k).length := by
  intro t
  induction t with
  | nil => intro acc k; simp [pySplitGo_nil]
  | cons c rest ih =>
    intro acc k
    cases k with
    | succ k' => rw [pySplitGo_skip]; exact ih acc k'
    | zero =>
      rw [pySplitGo_zero]
      by_cases h : sep ≠ [] ∧ sep.isPrefixOf (c :: rest) = true
      · rw [if_pos h]; simp
      · rw [if_neg h]; exact ih (c :: acc) 0

theorem go_two_le (sep : List Char) (hsep : sep ≠ []) :
    ∀ (t acc : List Char), sep <:+: t → 2 ≤ (pySplitGo sep t acc 0).length := by
  intro t
  induction t with
  | nil =>
    intro acc h
    exfalso
    rcases h with ⟨a, b, hab⟩
    rcases List.append_eq_nil.mp hab with ⟨hab1, -⟩
    rcases List.append_eq_nil.mp hab1 with ⟨-, hs⟩
    exact hsep hs
  | cons c rest ih =>
    intro acc h
    rw [pySplitGo_zero]
    by_cases hp : sep ≠ [] ∧ sep.isPrefixOf (c :: rest) = true
    · rw [if_pos hp]
      have hlen := go_len_pos sep rest [] (sep.length - 1)
      simp only [List.length_cons]
      omega
    · rw [if_neg hp]
      have hrest : sep <:+: rest := by
        rcases h with ⟨a, b, hab⟩
        cases a with
        | nil =>
          exfalso
          apply hp
          refine ⟨hsep, ?_⟩
          rw [ List.isPrefixOf_iff_prefix]
          exact ⟨b, by simpa using hab⟩
        | cons a0 a' =>
          refine ⟨a', b, ?_⟩
          have hab' : a0 :: (a' ++ sep ++ b) = c :: rest := by
            simpa [List.append_assoc] using hab
          have := (List.cons.injEq _ _ _ _).mp hab'
          simpa [List.append_assoc] using this.2
      exact ih (c :: acc) hrest

theorem pySplit_get1_none (sep : List Char) (hsep : sep ≠ []) (t : List Char)
    (h : ¬ sep <:+: t) : (pySplit sep t).get? 1 = none := by
  unfold pySplit
  rw [go_no_occ sep hsep t h []]
  rfl

theorem pySplit_not_occ_of_none (sep : List Char) (hsep : sep ≠ []) (t : List Char)
    (h : (pySplit sep t).get? 1 = none) : ¬ sep <:+: t := by
  intro hi
  have h2 := go_two_le sep hsep t [] hi
  rw [List.get?_eq_none] at h
  unfold pySplit at h
  omega

/-- If any of the five markers is absent from the response, `main` stores
`None` (the `[1]` index raises `IndexError`, caught at line 446). -/
theorem processResult_none_missing (t : List Char)
    (h : ¬ mSit <:+: t ∨ ¬ mOut <:+: t ∨ ¬ mOutEx <:+: t ∨
         ¬ mProc <:+: t ∨ ¬ mProcEx <:+: t) :
    processResult t = none := by
  have hn : (pySplit mSit t).get? 1 = none ∨ (pySplit mOut t).get? 1 = none ∨
      (pySplit mOutEx t).get? 1 = none ∨ (pySplit mProc t).get? 1 = none ∨
      (pySplit mProcEx t).get? 1 = none := by
    rcases h with h | h | h | h | h
    · exact Or.inl (pySplit_get1_none mSit (by decide) t h)
    · exact Or.inr (Or.inl (pySplit_get1_none mOut (by decide) t h))
    · exact Or.inr (Or.inr (Or.inl (pySplit_get1_none mOutEx (by decide) t h)))
    · exact Or.inr (Or.inr (Or.inr (Or.inl (pySplit_get1_none mProc (by decide) t h))))
    · exact Or.inr (Or.inr (Or.inr (Or.inr (pySplit_get1_none mProcEx (by decide) t h))))
  unfold processResult
  by_cases he : (pyStartsWith t mErr1 || pyStartsWith t mErr2) = true
  · rw [if_pos he]
  · rw [if_neg he]
    cases hA : (pySplit mSit t).get? 1 with
    | none => rfl
    | some a =>
      cases hB : (pySplit mOut t).get? 1 with
      | none => rfl
      | some b =>
        cases hC : (pySplit mOutEx t).get? 1 with
        | none => rfl
        | some c =>
          cases hD : (pySplit mProc t).get? 1 with
          | none => rfl
          | some d =>
            cases hE : (pySplit mProcEx t).get? 1 with
            | none => rfl
            | some e => rcases hn with h | h | h | h | h <;> simp_all

/-- Every stored plan has exactly the five keys, in insertion order. -/
theorem processResult_keys (t : List Char) (d : PlanDict)
    (h : processResult t = some d) : d.map Prod.fst = planKeys := by
  unfold processResult at h
  by_cases he : (pyStartsWith t mErr1 || pyStartsWith t mErr2) = true
  · rw [if_pos he] at h
    exact absurd h (by simp)
  · rw [if_neg he] at h
    cases hA : (pySplit mSit t).get? 1 with
    | none => rw [hA] at h; exact absurd h (by simp)
    | some a =>
      rw [hA] at h
      cases hB : (pySplit mOut t).get? 1 with
      | none => rw [hB] at h; exact absurd h (by simp)
      | some b =>
        rw [hB] at h
        cases hC : (pySplit mOutEx t).get? 1 with
        | none => rw [hC] at h; exact absurd h (by simp)
        | some c =>
          rw [hC] at h
          cases hD : (pySplit mProc t).get? 1 with
          | none => rw [hD] at h; exact absurd h (by simp)
          | some d4 =>
            rw [hD] at h
            cases hE : (pySplit mProcEx t).get? 1 with
            | none => rw [hE] at h; exact absurd h (by simp)
            | some e =>
              rw [hE] at h
              have hd : d = mkPlanDict
                  (pyStrip ((pySplit mOut a).headD []))
                  (pyStrip ((pySplit mOutEx b).headD []))
                  (pyStrip ((pySplit mProc c).headD []))
                  (pyStrip ((pySplit mProcEx d4).headD []))
                  (pyStrip e) := by
                injection h with h
                exact h.symm
              rw [hd]
              rfl

/-- C1: for a response text of the canonical shape — the five marker
strings present exactly once each, in prompt order, separated by
marker-free text (no `'['` outside the markers), and not starting with
either error prefix — the stored plan's five fields are exactly the
whitespace-stripped substrings of the response between each marker and the
next (and after the last marker for `process_explanation`). -/
theorem c1_plan_fields (pre s1 s2 s3 s4 s5 t : List Char)
    (hp : '[' ∉ pre) (h1 : '[' ∉ s1) (h2 : '[' ∉ s2) (h3 : '[' ∉ s3)
    (h4 : '[' ∉ s4) (h5 : '[' ∉ s5)
    (ht : t = pre ++ mSit ++ s1 ++ mOut ++ s2 ++ mOutEx ++ s3 ++ mProc ++ s4 ++ mProcEx ++ s5)
    (he1 : pyStartsWith t mErr1 = false) (he2 : pyStartsWith t mErr2 = false) :
    processResult t
      = some (mkPlanDict (pyStrip s1) (pyStrip s2) (pyStrip s3) (pyStrip s4) (pyStrip s5)) := by
  subst ht
  unfold processResult
  rw [if_neg (by simp only [List.append_assoc] at he1 he2; simp [he1, he2])]
  simp only [splitSit pre s1 s2 s3 s4 s5 hp h1 h2 h3 h4 h5,
    splitOut pre s1 s2 s3 s4 s5 hp h1 h2 h3 h4 h5,
    splitOutEx pre s1 s2 s3 s4 s5 hp h1 h2 h3 h4 h5,
    splitProc pre s1 s2 s3 s4 s5 hp h1 h2 h3 h4 h5,
    splitProcEx pre s1 s2 s3 s4 s5 hp h1 h2 h3 h4 h5,
    List.get?_cons_succ, List.get?_cons_zero]
  rw [inner_head mOut mOut_head s1 h1,
      inner_head mOutEx mOutEx_head s2 h2,
      inner_head mProc mProc_head s3 h3,
      inner_head mProcEx mProcEx_head s4 h4]

theorem c1_plan_fields_w :
    processResult ("".data ++ mSit ++ " A ".data ++ mOut ++ " B ".data ++ mOutEx
        ++ " C ".data ++ mProc ++ " D ".data ++ mProcEx ++ " E ".data)
      = some (mkPlanDict "A".data "B".data "C".data "D".data "E".data) :=
  (c1_plan_fields "".data " A ".data " B ".data " C ".data " D ".data " E ".data
    ("".data ++ mSit ++ " A ".data ++ mOut ++ " B ".data ++ mOutEx
        ++ " C ".data ++ mProc ++ " D ".data ++ mProcEx ++ " E ".data)
    (by decide) (by decide) (by decide) (by decide) (by decide) (by decide)
    rfl (by decide) (by decide)).trans (by decide)

/-- C3: after any generation attempt the stored plan is either `none` or a
dict with exactly the five fields; an error-prefixed result text or a
missing marker stores `none` (never a partial or stale plan); and the card
is displayed only when the stored plan is non-`none`. -/
theorem c3_plan_invariant (sit t : List Char) :
    (∀ d : PlanDict, (onGenerateClick sit t).plan = some d → d.map Prod.fst = planKeys) ∧
    ((pyStartsWith t mErr1 = true ∨ pyStartsWith t mErr2 = true ∨
      ¬ mSit <:+: t ∨ ¬ mOut <:+: t ∨ ¬ mOutEx <:+: t ∨
      ¬ mProc <:+: t ∨ ¬ mProcEx <:+: t) →
      (onGenerateClick sit t).plan = none) ∧
    (cardDisplayed (onGenerateClick sit t).plan = true →
      (onGenerateClick sit t).plan ≠ none) := by
  refine ⟨?_, ?_, ?_⟩
  · intro d hd
    unfold onGenerateClick at hd
    by_cases hb : pyStrip sit = []
    · rw [if_pos hb] at hd
      exact absurd hd (by simp)
    · rw [if_neg hb] at hd
      exact processResult_keys t d hd
  · intro h
    unfold onGenerateClick
    by_cases hb : pyStrip sit = []
    · rw [if_pos hb]
    · rw [if_neg hb]
      show processResult t = none
      rcases h with h | h | h
      · simp [processResult, h]
      · simp [processResult, h]
      · exact processResult_none_missing t h
  · intro h hn
    rw [hn] at h
    simp [cardDisplayed] at h

theorem c3_plan_invariant_w :
    (onGenerateClick "x".data "Error: boom".data).plan = none :=
  (c3_plan_invariant "x".data "Error: boom".data).2.1 (Or.inl (by decide))

/-- C9: a situation input that is empty or all whitespace issues no service
call, shows the warning, and stores `None`. -/
theorem c9_blank_input (sit t : List Char) (h : ∀ c ∈ sit, isPySpace c = true) :
    onGenerateClick sit t = { serviceCalled := false, warned := true, plan := none } := by
  have hb : pyStrip sit = [] := by
    unfold pyStrip
    rw [List.dropWhile_eq_nil_iff.mpr h]
    rfl
  unfold onGenerateClick
  rw [if_pos hb]

theorem c9_blank_input_w :
    onGenerateClick " \n\t".data "ignored".data
      = { serviceCalled := false, warned := true, plan := none } :=
  c9_blank_input " \n\t".data "ignored".data (by decide)

/-- C10: a generation attempt stores no card exactly when the result text
begins with one of the two error prefixes or lacks one of the five
markers; in particular any genuine response starting with such a prefix is
classified as a failure. -/
theorem c10_failure_iff (t : List Char) :
    processResult t = none ↔
      (pyStartsWith t mErr1 = true ∨ pyStartsWith t mErr2 = true ∨
       ¬ mSit <:+: t ∨ ¬ mOut <:+: t ∨ ¬ mOutEx <:+: t ∨
       ¬ mProc <:+: t ∨ ¬ mProcEx <:+: t) := by
  constructor
  · intro h
    by_contra hd
    push_neg at hd
    obtain ⟨he1, he2, h1, h2, h3, h4, h5⟩ := hd
    have he1f : pyStartsWith t mErr1 = false := by simpa using he1
    have he2f : pyStartsWith t mErr2 = false := by simpa using he2
    have g1 : (pySplit mSit t).get? 1 ≠ none :=
      fun hn => (pySplit_not_occ_of_none mSit (by decide) t hn) h1
    have g2 : (pySplit mOut t).get? 1 ≠ none :=
      fun hn => (pySplit_not_occ_of_none mOut (by decide) t hn) h2
    have g3 : (pySplit mOutEx t).get? 1 ≠ none :=
      fun hn => (pySplit_not_occ_of_none mOutEx (by decide) t hn) h3
    have g4 : (pySplit mProc t).get? 1 ≠ none :=
      fun hn => (pySplit_not_occ_of_none mProc (by decide) t hn) h4
    have g5 : (pySplit mProcEx t).get? 1 ≠ none :=
      fun hn => (pySplit_not_occ_of_none mProcEx (by decide) t hn) h5
    obtain ⟨a, ha⟩ := Option.ne_none_iff_exists'.mp g1
    obtain ⟨b, hb⟩ := Option.ne_none_iff_exists'.mp g2
    obtain ⟨c, hc⟩ := Option.ne_none_iff_exists'.mp g3
    obtain ⟨d, hd4⟩ := Option.ne_none_iff_exists'.mp g4
    obtain ⟨e, he5⟩ := Option.ne_none_iff_exists'.mp g5
    unfold processResult at h
    rw [if_neg (by simp [he1f, he2f])] at h
    rw [ha, hb, hc, hd4, he5] at h
    simp at h
  · intro h
    rcases h with h | h | h
    · simp [processResult, h]
    · simp [processResult, h]
    · exact processResult_none_missing t h

/-- C8: each call of `get_refocus_plan_from_gemini` issues exactly one
HTTP request — the trace of external effects is a single POST of the
prompt to the endpoint, identical on success and on every failure (no
retry). -/
theorem c8_single_request (apiKey situation : List Char) (o : ServiceOutcome) :
    (get_refocus_plan_from_gemini apiKey situation o).1
      = [GeminiEffect.httpPost (mkUrl apiKey) (mkPrompt situation)] := rfl

theorem pyDictGet_any (es : List (List Char × JVal)) (k : List Char) (v : JVal)
    (h : pyDictGet es k = some v) : es.any (fun p => p.1 == k) = true := by
  unfold pyDictGet at h
  cases hf : es.find? (fun p => p.1 == k) with
  | none => rw [hf] at h; exact absurd h (by simp)
  | some p =>
    rw [List.any_eq_true]
    have hpa := List.find?_some hf
    exact ⟨p, List.mem_of_find?_eq_some hf, hpa⟩

theorem pyDictGet_none_any (es : List (List Char × JVal)) (k : List Char)
    (h : pyDictGet es k = none) : es.any (fun p => p.1 == k) = false := by
  unfold pyDictGet at h
  cases hf : es.find? (fun p => p.1 == k) with
  | some p => rw [hf] at h; exact absurd h (by simp)
  | none =>
    rw [List.any_eq_false]
    intro x hx
    exact List.find?_eq_none.mp hf x hx

/-- C2: `get_refocus_plan_from_gemini` returns on every service outcome
(the Lean embedding is a total function — the Python `try`/`except`
catches every exception the body can raise): on a request exception it
returns the request-error message string; on any other pre-navigation
exception the unknown-error message string; on a response whose first
candidate carries text it returns that text; and on a response without a
`"candidates"` entry it returns the "empty or unexpected format" message
string. -/
theorem c2_service_result :
    (∀ (k sit m : List Char),
      (get_refocus_plan_from_gemini k sit (ServiceOutcome.requestError m)).2
        = JVal.str (reqErrPrefix ++ m)) ∧
    (∀ (k sit m : List Char),
      (get_refocus_plan_from_gemini k sit (ServiceOutcome.unknownError m)).2
        = JVal.str (unkErrPrefix ++ m)) ∧
    (∀ (k sit : List Char) (es ce contentEs pe : List (List Char × JVal))
       (cs ps : List JVal) (txt : List Char),
      pyDictGet es candKey = some (JVal.arr (JVal.dict ce :: cs)) →
      pyDictGet ce contentKey = some (JVal.dict contentEs) →
      pyDictGet contentEs partsKey = some (JVal.arr (JVal.dict pe :: ps)) →
      pyDictGet pe textKey = some (JVal.str txt) →
      (get_refocus_plan_from_gemini k sit (ServiceOutcome.ok (JVal.dict es))).2
        = JVal.str txt) ∧
    (∀ (k sit : List Char) (es : List (List Char × JVal)),
      pyDictGet es candKey = none →
      (get_refocus_plan_from_gemini k sit (ServiceOutcome.ok (JVal.dict es))).2
        = JVal.str (emptyRespPrefix ++ pyStr (JVal.dict es))) := by
  refine ⟨fun k sit m => rfl, fun k sit m => rfl, ?_, ?_⟩
  · intro k sit es ce contentEs pe cs ps txt hcand hcont hparts htext
    have hany := pyDictGet_any es candKey _ hcand
    simp [get_refocus_plan_from_gemini, extractText, pyIn, pySubscriptKey,
      pySubscriptZero, pyGetMethod, pyTruthy, hany, hcand, hcont, hparts, htext]
  · intro k sit es hnone
    have hany := pyDictGet_none_any es candKey hnone
    simp [get_refocus_plan_from_gemini, extractText, pyIn, hany]

theorem c2_service_result_w :
    (get_refocus_plan_from_gemini "k".data "hello".data (ServiceOutcome.ok (JVal.dict
      [(candKey, JVal.arr [JVal.dict [(contentKey, JVal.dict
        [(partsKey, JVal.arr [JVal.dict [(textKey, JVal.str "hi".data)]])])]])]))).2
      = JVal.str "hi".data :=
  c2_service_result.2.2.1 "k".data "hello".data _ _ _ _ [] [] "hi".data
    rfl rfl rfl rfl

/-- The worker on a queue of chunks followed by a sentinel: it accumulates
`text ++ " "` for each recognized chunk, in arrival order, and stops at the
sentinel regardless of what follows. -/
theorem runWorker_append (chunks : List RecognitionResult) (rest : List QItem)
    (acc : List Char) :
    runWorker (List.map QItem.chunk chunks ++ QItem.sentinel :: rest) acc
      = some (acc ++ joinSp (recognizedTexts (List.map QItem.chunk chunks))) := by
  induction chunks generalizing acc with
  | nil => simp [runWorker, recognizedTexts, joinSp]
  | cons r rs ih =>
    cases r with
    | text s =>
      rw [List.map_cons, List.cons_append]
      show runWorker (List.map QItem.chunk rs ++ QItem.sentinel :: rest) (acc ++ s ++ [' ']) = _
      rw [ih]
      simp [recognizedTexts, joinSp]
    | noSpeech =>
      rw [List.map_cons, List.cons_append]
      show runWorker (List.map QItem.chunk rs ++ QItem.sentinel :: rest) acc = _
      rw [ih]
      simp [recognizedTexts, joinSp]
    | serviceError =>
      rw [List.map_cons, List.cons_append]
      show runWorker (List.map QItem.chunk rs ++ QItem.sentinel :: rest) acc = _
      rw [ih]
      simp [recognizedTexts, joinSp]

theorem joinSp_eq_nil (l : List (List Char)) : joinSp l = [] ↔ l = [] := by
  cases l with
  | nil => simp [joinSp]
  | cons s ls => simp [joinSp]

/-- C4 (as stated) fails on the model: a single recognized chunk `"go"`
yields the final transcript `"go "` — each recognized string is followed
by a space — not the space-join `"go"` of the claim. -/
theorem c4_transcript_cex :
    finalTranscript [QItem.chunk (RecognitionResult.text "go".data), QItem.sentinel]
      ≠ some (specSpaceJoin ["go".data]) := by decide

/-- C4 (amended): for any sequence of chunks pushed before the sentinel,
the final transcript is the concatenation, in arrival order, of each
recognized string followed by a single space (the space-join of the k
strings plus a trailing space); when no chunk contributes text it is the
no-speech marker. -/
theorem c4_transcript_value (chunks : List RecognitionResult) (rest : List QItem) :
    finalTranscript (List.map QItem.chunk chunks ++ QItem.sentinel :: rest)
      = some (if recognizedTexts (List.map QItem.chunk chunks) = []
              then noSpeechMarker
              else joinSp (recognizedTexts (List.map QItem.chunk chunks))) := by
  unfold finalTranscript
  rw [runWorker_append chunks rest []]
  simp only [Option.map_some', List.nil_append]
  congr 1
  by_cases h : recognizedTexts (List.map QItem.chunk chunks) = []
  · rw [h]
    simp [joinSp]
  · rw [if_neg h, if_neg (fun hj => h ((joinSp_eq_nil _).mp hj))]

/-- C5: if no chunk before the sentinel contributes text (in particular if
there are no chunks at all), the final transcript is the explicit
no-speech marker, which is not the empty string. -/
theorem c5_empty_marker (chunks : List RecognitionResult) (rest : List QItem)
    (h : recognizedTexts (List.map QItem.chunk chunks) = []) :
    finalTranscript (List.map QItem.chunk chunks ++ QItem.sentinel :: rest)
      = some noSpeechMarker ∧ noSpeechMarker ≠ [] := by
  constructor
  · unfold finalTranscript
    rw [runWorker_append chunks rest []]
    simp [h, joinSp]
  · decide

theorem c5_empty_marker_w :
    finalTranscript (List.map QItem.chunk [RecognitionResult.noSpeech]
        ++ QItem.sentinel :: []) = some noSpeechMarker ∧ noSpeechMarker ≠ [] :=
  c5_empty_marker [RecognitionResult.noSpeech] [] (by decide)

/-- C6: the worker never reads past the sentinel — its result is
independent of everything queued after the sentinel; in particular for a
queue `chunk, sentinel, chunk` the transcript is that of `chunk, sentinel`
alone, so only the first chunk contributes. -/
theorem c6_sentinel_stop :
    (∀ (pre post post2 : List QItem) (acc : List Char),
      runWorker (pre ++ QItem.sentinel :: post) acc
        = runWorker (pre ++ QItem.sentinel :: post2) acc) ∧
    (∀ (a b : RecognitionResult),
      finalTranscript [QItem.chunk a, QItem.sentinel, QItem.chunk b]
        = finalTranscript [QItem.chunk a, QItem.sentinel]) := by
  have key : ∀ (pre post post2 : List QItem) (acc : List Char),
      runWorker (pre ++ QItem.sentinel :: post) acc
        = runWorker (pre ++ QItem.sentinel :: post2) acc := by
    intro pre
    induction pre with
    | nil => intro _ _ _; rfl
    | cons i pre ih =>
      intro post post2 acc
      cases i with
      | sentinel => rfl
      | chunk r =>
        cases r with
        | text s => exact ih post post2 (acc ++ s ++ [' '])
        | noSpeech => exact ih post post2 acc
        | serviceError => exact ih post post2 acc
  refine ⟨key, ?_⟩
  intro a b
  unfold finalTranscript
  have h := key [QItem.chunk a] [QItem.chunk b] [] []
  simp only [List.cons_append, List.nil_append] at h
  rw [h]

/-- C7: every transition of the capture lifecycle either stays in place
(Recording on a frame) or moves exactly one step along
Idle → Recording → Draining → Stopped, except the single wrap from
Stopped back to Idle that begins a new cycle; no transition skips a state,
and Stopped admits no successor other than a fresh Idle. -/
theorem c7_lifecycle :
    (∀ (s : CapState) (e : CapEvent) (s2 : CapState), capStep s e = some s2 →
      stateIdx s2 = stateIdx s ∨ stateIdx s2 = stateIdx s + 1 ∨
      (s = CapState.stopped ∧ s2 = CapState.idle)) ∧
    (∀ (e : CapEvent) (s2 : CapState), capStep CapState.stopped e = some s2 →
      s2 = CapState.idle) := by decide

theorem c7_lifecycle_w :
    stateIdx CapState.recording = stateIdx CapState.idle ∨
    stateIdx CapState.recording = stateIdx CapState.idle + 1 ∨
    (CapState.idle = CapState.stopped ∧ CapState.recording = CapState.idle) :=
  c7_lifecycle.1 CapState.idle CapEvent.startCapture CapState.recording (by decide)

end STT
